import Mathlib

/-!
Verification of the screen-checker pipeline.

The repository has two pipeline variants:
* `src/screen_checker.py` (the later, canonical variant): `find_screen`,
  `check_screen`, `ocr_ssd`;
* `src/main.py` (the earlier variant): `find_screen`, `check_screen` with a
  brightness-normalization step that writes into an intermediate HSV array.

External collaborators (OpenCV / colour-science / tesseract primitives) are
modelled as fields of a `Prims` structure: the pipeline code under
verification is translated faithfully, the black boxes stay abstract.
Machine floats are idealized as rationals.  In-place array mutation is
modelled by an explicit heap of buffers (`Heap`), threaded through stateful
versions of the operations; the pure versions compute the returned value.
-/

/-- A BGR (or HSV / Lab, depending on context) pixel: a triple of channel
values. -/
abbrev Px : Type := ℚ × ℚ × ℚ

/-- A 3-channel image: a 2-D grid of pixel triples. -/
abbrev Img : Type := List (List Px)

/-- A single-channel image: a 2-D grid of scalar values. -/
abbrev GrayImg : Type := List (List ℚ)

/-- A 2-D integer point, as produced by contour extraction. -/
abbrev Pt : Type := ℤ × ℤ

/-- A contour: an ordered sequence of 2-D integer points. -/
abbrev Contour : Type := List Pt

/-- The `Color` enumeration of both source files. -/
inductive Color : Type
  | BLUE
  | GREEN
  | RED
  | WHITE
  | BLACK
deriving DecidableEq, Repr

/-- The numeric value of each `Color` enum member (`BLUE = 0`, `GREEN = 1`,
`RED = 2`, `WHITE = 3`, `BLACK = 4`), used as a channel index by
`photo[..., color.value]`. -/
def Color.value : Color → Nat
  | .BLUE => 0
  | .GREEN => 1
  | .RED => 2
  | .WHITE => 3
  | .BLACK => 4

/-- The delta-E method names accepted by `check_screen` (the `method`
parameter of `colour.delta_E`). -/
inductive DeltaEMethod : Type
  | cie1976
  | cie1994
  | cie2000
  | cmc
  | cam02lcd
  | cam02scd
  | cam02ucs
  | cam16lcd
  | cam16scd
  | cam16ucs
  | din99
deriving DecidableEq, Repr

/-- The errors the pipeline can raise.  All of them are `ValueError`s in the
Python source, but they are distinct raise sites with distinct messages:
* `invalidColor` — "Cannot find a black screen from a photo."
* `multipleContours` — "Multiple contours found."
* `screenNotFound` — "Cannot find the screen."
* `emptySequence` — the builtin error raised by Python's `max()` / NumPy's
  `np.max` when applied to an empty sequence (no raise site in the
  repository's own code).
* `badRef` — an artifact of the heap model only: the given buffer index does
  not hold a 3-channel image.  The Python functions receive the array itself,
  so this case never corresponds to source behaviour. -/
inductive Err : Type
  | invalidColor
  | multipleContours
  | screenNotFound
  | emptySequence
  | badRef
deriving DecidableEq, Repr

/-- The abstract external primitives (OpenCV, colour-science, tesseract).
The spec treats them as exact black boxes; each field is one primitive. -/
structure Prims : Type where
  /-- Per-pixel luminance of `cv2.cvtColor(·, cv2.COLOR_BGR2GRAY)`. -/
  gray2px : Px → ℚ
  /-- The global threshold picked by Otsu's method
  (`cv2.threshold(·, None, 255, cv2.THRESH_OTSU)`). -/
  otsu : GrayImg → ℚ
  /-- `imutils.grab_contours (cv2.findContours binary cv2.RETR_LIST
  cv2.CHAIN_APPROX_SIMPLE)`. -/
  findContours : GrayImg → List Contour
  /-- `cv2.contourArea`. -/
  contourArea : Contour → ℚ
  /-- `cv2.arcLength contour closed`. -/
  arcLength : Contour → Bool → ℚ
  /-- `cv2.approxPolyDP contour epsilon closed`, already squeezed to a plain
  point list (the source squeezes with `approx[:, 0, :]`). -/
  approxPolyDP : Contour → ℚ → Bool → List Pt
  /-- `imutils.perspective.four_point_transform`. -/
  fourPointTransform : Img → List Pt → Img
  /-- Per-pixel `cv2.COLOR_BGR2LAB` conversion on float input in `[0, 1]`. -/
  cvtLabPx : Px → Px
  /-- Modelled from the spec: `opencv_utils.cvt_single_color` (a repository
  module not present under `src/`), which the spec describes as converting
  one reference triple into the same perceptually-uniform Lab space
  (black-box color-science collaborator).  Variant used by
  `screen_checker.check_screen` (`np.float32` dtype argument). -/
  cvtSingleLab : Px → Px
  /-- Per-pixel `colour.delta_E` for a given method. -/
  deltaE : DeltaEMethod → Px → Px → ℚ
  /-- Per-pixel `cv2.COLOR_BGR2HSV` conversion (main.py variant). -/
  hsvOfBgr : Px → Px
  /-- Per-pixel `cv2.COLOR_HSV2BGR` conversion (main.py variant). -/
  bgrOfHsv : Px → Px
  /-- Per-pixel `cv2.COLOR_BGR2LAB` conversion on 8-bit input
  (main.py variant). -/
  cvtLabPx8 : Px → Px
  /-- Modelled from the spec: `opencv_utils.cvt_single_color` as called by
  `main.check_screen` (no dtype argument). -/
  cvtSingleLab8 : Px → Px
  /-- `cv2.boundingRect` of the bright pixels of a binary image:
  `(x, y, w, h)`. -/
  boundingRect : GrayImg → Nat × Nat × Nat × Nat
  /-- `pytesseract.image_to_string (Image.fromarray img) lang config`. -/
  imageToString : GrayImg → String → String → String

/-- Channel `k` of a pixel triple (BGR order, so channel 0 is blue, 1 is
green, 2 is red). -/
def pxChannel (k : Nat) : Px → ℚ :=
  fun px => if k = 0 then px.1 else if k = 1 then px.2.1 else px.2.2

/-- `photo[..., k]`: extract one channel of a 3-channel image. -/
def channelImg (photo : Img) (k : Nat) : GrayImg :=
  photo.map (fun row => row.map (pxChannel k))

/-- Whole-image grayscale conversion, `cv2.cvtColor(photo, COLOR_BGR2GRAY)`. -/
def toGray (P : Prims) (photo : Img) : GrayImg :=
  photo.map (fun row => row.map P.gray2px)

/-- `cv2.threshold(gray, None, 255, cv2.THRESH_OTSU)[1]`: Otsu picks a global
threshold `t`; the binary output maps values above `t` to 255 and the rest
to 0. -/
def binarize (P : Prims) (g : GrayImg) : GrayImg :=
  let t := P.otsu g
  g.map (fun row => row.map (fun v => if t < v then (255 : ℚ) else 0))

/-- Python's `max(xs, key=key)`: `none` on an empty sequence (Python raises
the empty-sequence `ValueError` there), otherwise the first element attaining
the maximal key (a later element replaces the current one only when its key
is strictly greater). -/
def pyMaxBy {α : Type} (key : α → ℚ) : List α → Option α
  | [] => none
  | x :: xs => some (xs.foldl (fun acc c => if key acc < key c then c else acc) x)

/-- `np.max` over a 2-D single-channel array (`none` models the raise on an
empty array). -/
def npMax (g : GrayImg) : Option ℚ :=
  pyMaxBy id g.flatten

/-- The Python slice `a[16:-16]` on one axis. -/
def pySlice16 {α : Type} (l : List α) : List α :=
  (l.drop 16).take (l.length - 32)

/-- `warped[16:-16, 16:-16]`: trim a fixed 16-pixel margin on all four
sides. -/
def trimImg {α : Type} (img : List (List α)) : List (List α) :=
  (pySlice16 img).map pySlice16

/-- `cropped.astype(np.float32) / 255` on one pixel. -/
def scale255 (px : Px) : Px :=
  (px.1 / 255, px.2.1 / 255, px.2.2 / 255)

/-- `cropped.astype(np.float32) / 255` on a whole image. -/
def scaleImg (img : Img) : Img :=
  img.map (fun row => row.map scale255)

/-- `cv2.cvtColor(·, cv2.COLOR_BGR2LAB)` on a float image. -/
def cvtLabImg (P : Prims) (img : Img) : Img :=
  img.map (fun row => row.map P.cvtLabPx)

/-- `colour.delta_E(lab, expected, method)`: per-pixel distance to the single
reference color, broadcast over the image. -/
def deltasOf (P : Prims) (method : DeltaEMethod) (lab : Img) (expected : Px) : GrayImg :=
  lab.map (fun row => row.map (fun q => P.deltaE method q expected))

/-- `binary[y : y + h, x : x + w]` (Python slice semantics, clipping at the
ends). -/
def cropRect (g : GrayImg) (x y w h : Nat) : GrayImg :=
  ((g.drop y).take h).map (fun row => (row.drop x).take w)

/-- Python's `str.strip()`: drop whitespace from both ends. -/
def pyStrip (s : String) : String :=
  ⟨((s.data.dropWhile Char.isWhitespace).reverse.dropWhile Char.isWhitespace).reverse⟩

/-- `cv2.copyMakeBorder` with a constant 0 border of width `n` on all four
sides. -/
def addBorder (n : Nat) (g : GrayImg) : GrayImg :=
  let w := (g.head?.elim 0 List.length) + 2 * n
  let zrow := List.replicate w (0 : ℚ)
  List.replicate n zrow ++
    g.map (fun row => List.replicate n (0 : ℚ) ++ row ++ List.replicate n (0 : ℚ)) ++
    List.replicate n zrow

namespace ScreenChecker

/-- The `_color2bgr` table of `screen_checker.py` (normalized float
triples). -/
def _color2bgr : Color → Px
  | .BLUE => (1, 0, 0)
  | .GREEN => (0, 1, 0)
  | .RED => (0, 0, 1)
  | .WHITE => (1, 1, 1)
  | .BLACK => (0, 0, 0)

/-- The single-channel intensity map derived in `find_screen` (both
variants): grayscale for `WHITE`, otherwise channel `color.value` of the
photo. -/
def grayOf (P : Prims) (photo : Img) (color : Color) : GrayImg :=
  if color = .WHITE then toGray P photo else channelImg photo color.value

/-- The Otsu-binarized map of `find_screen`. -/
def binaryOf (P : Prims) (photo : Img) (color : Color) : GrayImg :=
  binarize P (grayOf P photo color)

/-- The contours extracted by `find_screen` (both variants). -/
def contoursOf (P : Prims) (photo : Img) (color : Color) : List Contour :=
  P.findContours (binaryOf P photo color)

/-- The contours surviving the noise-floor filter of
`screen_checker.find_screen`: `filter(lambda c: cv2.contourArea(c) > 4,
contours)`. -/
def survivingOf (P : Prims) (photo : Img) (color : Color) : List Contour :=
  (contoursOf P photo color).filter (fun c => decide ((4 : ℚ) < P.contourArea c))

/-- The quadrilateral-approximation tail shared by both `find_screen`
variants: `approxPolyDP` with epsilon `0.01 * arcLength(contour, True)`,
returning the vertices when there are exactly 4 of them and raising
"Cannot find the screen." otherwise. -/
def quadApprox (P : Prims) (sc : Contour) : Except Err (List Pt) :=
  if (P.approxPolyDP sc (1 / 100 * P.arcLength sc true) true).length = 4 then
    .ok (P.approxPolyDP sc (1 / 100 * P.arcLength sc true) true)
  else .error .screenNotFound

/-- `screen_checker.find_screen`. -/
def find_screen (P : Prims) (photo : Img) (color : Color)
    (strict : Bool := false) : Except Err (List Pt) :=
  if color = .BLACK then .error .invalidColor
  else
    let surv := survivingOf P photo color
    if strict = true ∧ 1 < surv.length then .error .multipleContours
    else
      match pyMaxBy P.contourArea surv with
      | none => .error .emptySequence
      | some sc => quadApprox P sc

/-- `screen_checker.check_screen` (the `method` argument defaults to
`"CIE 2000"` in the source). -/
def check_screen (P : Prims) (photo : Img) (color : Color) (corners : List Pt)
    (method : DeltaEMethod := .cie2000) : Except Err ℚ :=
  match npMax (deltasOf P method
      (cvtLabImg P (scaleImg (trimImg (P.fourPointTransform photo corners))))
      (P.cvtSingleLab (_color2bgr color))) with
  | none => .error .emptySequence
  | some v => .ok v

/-- The post-localization stage of `ocr_ssd`, applied to the warped image:
grayscale, Otsu binarization, tight crop to the bounding rectangle of the
bright pixels, 10-pixel constant border, OCR with language "lets" and config
"--psm 8", and a final whitespace trim. -/
def ocrPost (P : Prims) (warped : Img) : String :=
  let gray := toGray P warped
  let binary := binarize P gray
  match P.boundingRect binary with
  | (x, y, w, h) =>
    let cropped := cropRect binary x y w h
    let bordered := addBorder 10 cropped
    pyStrip (P.imageToString bordered "lets" "--psm 8")

/-- `screen_checker.ocr_ssd`. -/
def ocr_ssd (P : Prims) (photo : Img) : Except Err String :=
  match find_screen P photo .WHITE with
  | .error e => .error e
  | .ok corners => .ok (ocrPost P (P.fourPointTransform photo corners))

end ScreenChecker

namespace MainVariant

/-- The `color2bgr` table of `main.py` (8-bit triples). -/
def color2bgr : Color → Px
  | .BLUE => (255, 0, 0)
  | .GREEN => (0, 255, 0)
  | .RED => (0, 0, 255)
  | .WHITE => (255, 255, 255)
  | .BLACK => (0, 0, 0)

/-- `main.find_screen`: same as the later variant but with no `strict` mode
and no noise-floor filter — `max` runs over all extracted contours. -/
def find_screen (P : Prims) (photo : Img) (color : Color) :
    Except Err (List Pt) :=
  if color = .BLACK then .error .invalidColor
  else
    match pyMaxBy P.contourArea (ScreenChecker.contoursOf P photo color) with
    | none => .error .emptySequence
    | some sc => ScreenChecker.quadApprox P sc

/-- The value channel of an HSV pixel (`hsv[:, :, 2]`). -/
def hsvValue (px : Px) : ℚ := px.2.2

/-- The brightness bump of `main.check_screen`:
`hsv[:, :, 2] += 255 - np.max(hsv[:, :, 2])`, applied to one pixel. -/
def bumpValue (m : ℚ) (px : Px) : Px :=
  (px.1, px.2.1, px.2.2 + (255 - m))

/-- The value `main.check_screen` returns (heap effects aside): warp, trim the
16-pixel margin, brighten via HSV unless the color is `BLACK`, convert to
Lab, and take the maximum per-pixel delta-E against the reference color
(default method, "CIE 2000"). -/
def check_screen (P : Prims) (photo : Img) (color : Color)
    (corners : List Pt) : Except Err ℚ :=
  let warped := P.fourPointTransform photo corners
  let cropped := trimImg warped
  let expected := P.cvtSingleLab8 (color2bgr color)
  if color = .BLACK then
    let lab := (cropped.map (fun row => row.map P.cvtLabPx8))
    match npMax (deltasOf P .cie2000 lab expected) with
    | none => .error .emptySequence
    | some v => .ok v
  else
    let hsv := cropped.map (fun row => row.map P.hsvOfBgr)
    match npMax (hsv.map (fun row => row.map hsvValue)) with
    | none => .error .emptySequence
    | some m =>
      let hsv2 := hsv.map (fun row => row.map (bumpValue m))
      let bgr := hsv2.map (fun row => row.map P.bgrOfHsv)
      let lab := bgr.map (fun row => row.map P.cvtLabPx8)
      match npMax (deltasOf P .cie2000 lab expected) with
      | none => .error .emptySequence
      | some v => .ok v

end MainVariant

/-- A heap buffer: either a 3-channel image or a single-channel image. -/
inductive Buf : Type
  | colorB (d : Img)
  | grayB (d : GrayImg)
deriving DecidableEq

/-- The heap of allocated array buffers; NumPy/OpenCV operations that build a
new array append a buffer, the one in-place write of `main.check_screen`
overwrites a buffer. -/
abbrev Heap : Type := List Buf

namespace ScreenChecker

/-- Heap-level `screen_checker.find_screen`: the photo lives at buffer index
`p`; the BLACK check happens before any buffer is read or allocated, then the
grayscale map and the binary map are allocated, and the result value is that
of `find_screen`. -/
def find_screenS (P : Prims) (h : Heap) (p : Nat) (color : Color)
    (strict : Bool := false) : Heap × Except Err (List Pt) :=
  if color = .BLACK then (h, .error .invalidColor)
  else
    match h.get? p with
    | some (.colorB photo) =>
      (h ++ [.grayB (grayOf P photo color), .grayB (binaryOf P photo color)],
        find_screen P photo color strict)
    | _ => (h, .error .badRef)

/-- Heap-level `screen_checker.check_screen`: allocates the warped image
(`four_point_transform`), the rescaled float copy (`astype` + `/ 255`), the
Lab image and the delta-E array; `cropped` is a view and allocates nothing.
No buffer is ever overwritten. -/
def check_screenS (P : Prims) (h : Heap) (p : Nat) (color : Color)
    (corners : List Pt) (method : DeltaEMethod := .cie2000) :
    Heap × Except Err ℚ :=
  match h.get? p with
  | some (.colorB photo) =>
    let warped := P.fourPointTransform photo corners
    let scaled := scaleImg (trimImg warped)
    let lab := cvtLabImg P scaled
    let delta_e := deltasOf P method lab (P.cvtSingleLab (_color2bgr color))
    (h ++ [.colorB warped, .colorB scaled, .colorB lab, .grayB delta_e],
      check_screen P photo color corners method)
  | _ => (h, .error .badRef)

/-- Heap-level `screen_checker.ocr_ssd`: the localization step allocates its
grayscale and binary maps; on success the warped image, the OCR grayscale and
binary maps and the bordered image are allocated (`cropped` is a view).  No
buffer is ever overwritten. -/
def ocr_ssdS (P : Prims) (h : Heap) (p : Nat) : Heap × Except Err String :=
  match h.get? p with
  | some (.colorB photo) =>
    let h1 := h ++ [.grayB (grayOf P photo .WHITE),
      .grayB (binaryOf P photo .WHITE)]
    match find_screen P photo .WHITE with
    | .error e => (h1, .error e)
    | .ok corners =>
      let warped := P.fourPointTransform photo corners
      let gray := toGray P warped
      let binary := binarize P gray
      match P.boundingRect binary with
      | (x, y, w, hh) =>
        let bordered := addBorder 10 (cropRect binary x y w hh)
        (h1 ++ [.colorB warped, .grayB gray, .grayB binary, .grayB bordered],
          .ok (pyStrip (P.imageToString bordered "lets" "--psm 8")))
  | _ => (h, .error .badRef)

end ScreenChecker

namespace MainVariant

/-- Heap-level `main.check_screen`.  The warped image and the HSV conversion
are fresh allocations; the brightness-normalization line
`hsv[:, :, 2] += 255 - np.max(hsv[:, :, 2])` is the single in-place write of
the repository and overwrites the freshly allocated HSV buffer (index
`h.length + 1`), never the caller's photo; the BGR, Lab and delta-E arrays
are fresh allocations again. -/
def check_screenS (P : Prims) (h : Heap) (p : Nat) (color : Color)
    (corners : List Pt) : Heap × Except Err ℚ :=
  match h.get? p with
  | some (.colorB photo) =>
    let warped := P.fourPointTransform photo corners
    let h1 := h ++ [Buf.colorB warped]
    let cropped := trimImg warped
    let expected := P.cvtSingleLab8 (color2bgr color)
    if color = .BLACK then
      let lab := cropped.map (fun row => row.map P.cvtLabPx8)
      let delta_e := deltasOf P .cie2000 lab expected
      (h1 ++ [Buf.colorB lab, Buf.grayB delta_e],
        check_screen P photo color corners)
    else
      let hsv := cropped.map (fun row => row.map P.hsvOfBgr)
      let h2 := h1 ++ [Buf.colorB hsv]
      match npMax (hsv.map (fun row => row.map hsvValue)) with
      | none => (h2, .error .emptySequence)
      | some m =>
        let hsv2 := hsv.map (fun row => row.map (bumpValue m))
        let h3 := h2.set (h.length + 1) (Buf.colorB hsv2)
        let bgr := hsv2.map (fun row => row.map P.bgrOfHsv)
        let lab := bgr.map (fun row => row.map P.cvtLabPx8)
        let delta_e := deltasOf P .cie2000 lab expected
        (h3 ++ [Buf.colorB bgr, Buf.colorB lab, Buf.grayB delta_e],
          check_screen P photo color corners)
  | _ => (h, .error .badRef)

end MainVariant

/-- Modelled from the spec: the SevenSegmentPreprocessor `readDisplay`
pipeline as §4.5 describes it — locate via ScreenLocator with color `WHITE`,
rectify via PerspectiveNormalizer *including its standard 16-pixel margin
trim* (§4.3), then binarize, tight-crop, pad and OCR.  This follows the
spec's words; the code's actual pipeline is `ScreenChecker.ocr_ssd`. -/
def readDisplaySpec (P : Prims) (photo : Img) : Except Err String :=
  match ScreenChecker.find_screen P photo .WHITE with
  | .error e => .error e
  | .ok corners =>
    .ok (ScreenChecker.ocrPost P (trimImg (P.fourPointTransform photo corners)))

deriving instance DecidableEq for Except

/-- A concrete 1-pixel photo used to evaluate the pipeline on explicit
inputs. -/
def photo1 : Img := [[((0 : ℚ), 0, 0)]]

/-- A concrete quadrilateral contour. -/
def contourQuad : Contour := [(0, 0), (32, 0), (32, 32), (0, 32)]

/-- A concrete 5-point contour. -/
def contourPenta : Contour := [(0, 0), (16, 0), (32, 16), (16, 32), (0, 32)]

/-- A concrete triangular contour (too small to survive the noise floor under
`samplePrims`). -/
def contourTri : Contour := [(0, 0), (2, 0), (0, 2)]

/-- A concrete 33×33 uniform image, the output of the sample
`four_point_transform`. -/
def warped33 : Img := List.replicate 33 (List.replicate 33 ((200 : ℚ), 200, 200))

/-- A concrete instantiation of the external primitives, used to evaluate the
pipeline on explicit inputs.  Contour areas are literals chosen by point
count so every arithmetic comparison reduces. -/
def samplePrims : Prims where
  gray2px := fun px => px.1
  otsu := fun _ => 100
  findContours := fun _ => [contourQuad, contourPenta, contourTri]
  contourArea := fun c =>
    if c.length = 4 then 10 else if c.length = 5 then 20 else 2
  arcLength := fun _ _ => 128
  approxPolyDP := fun c _ _ => c.take 4
  fourPointTransform := fun _ _ => warped33
  cvtLabPx := fun px => px
  cvtSingleLab := fun px => px
  deltaE := fun _ _ _ => 0
  hsvOfBgr := fun px => px
  bgrOfHsv := fun px => px
  cvtLabPx8 := fun px => px
  cvtSingleLab8 := fun px => px
  boundingRect := fun g => (0, 0, g.head?.elim 0 List.length, g.length)
  imageToString := fun g _ _ => if 33 < g.length then "BIG" else "SMALL"

/-- `samplePrims` with contour extraction finding nothing (a photo with no
screen-colored region at all). -/
def noContourPrims : Prims :=
  { samplePrims with findContours := fun _ => [] }

/-- `samplePrims` with contour extraction finding a single surviving
contour. -/
def oneContourPrims : Prims :=
  { samplePrims with findContours := fun _ => [contourQuad, contourTri] }

/-- `samplePrims` with a 1×1 four-point-transform output, exercising the
degenerate-crop paths. -/
def tinyWarpPrims : Prims :=
  { samplePrims with fourPointTransform := fun _ _ => [[((1 : ℚ), 2, 3)]] }

/-- The list of per-pixel perceptual deviations `check_screen` maximizes
over: one `delta_E` value against the reference color for every pixel of the
rectified image after the 16-pixel margin trim. -/
def devList (P : Prims) (photo : Img) (color : Color) (corners : List Pt)
    (method : DeltaEMethod) : List ℚ :=
  (trimImg (P.fourPointTransform photo corners)).flatten.map
    (fun px => P.deltaE method (P.cvtLabPx (scale255 px))
      (P.cvtSingleLab (ScreenChecker._color2bgr color)))

theorem pyFold_spec {α : Type} (key : α → ℚ) :
    ∀ (xs : List α) (x : α),
      xs.foldl (fun acc c => if key acc < key c then c else acc) x ∈ x :: xs ∧
        ∀ b ∈ x :: xs,
          key b ≤ key (xs.foldl (fun acc c => if key acc < key c then c else acc) x)
  | [], x => by simp
  | y :: ys, x => by
    obtain ⟨hmem, hle⟩ := pyFold_spec key ys (if key x < key y then y else x)
    have hxy : key x ≤ key (if key x < key y then y else x) := by
      split
      · exact le_of_lt (by assumption)
      · exact le_refl _
    have hyy : key y ≤ key (if key x < key y then y else x) := by
      split
      · exact le_refl _
      · exact le_of_not_lt (by assumption)
    have hhead := hle _ (List.mem_cons_self _ _)
    constructor
    · simp only [List.foldl_cons]
      rcases List.mem_cons.mp hmem with hh | hh
      · rw [hh]
        split
        · exact List.mem_cons_of_mem _ (List.mem_cons_self _ _)
        · exact List.mem_cons_self _ _
      · exact List.mem_cons_of_mem _ (List.mem_cons_of_mem _ hh)
    · intro b hb
      simp only [List.foldl_cons]
      rcases List.mem_cons.mp hb with hh | hh
      · subst hh
        exact le_trans hxy hhead
      · rcases List.mem_cons.mp hh with hh2 | hh2
        · subst hh2
          exact le_trans hyy hhead
        · exact hle b (List.mem_cons_of_mem _ hh2)

theorem pyMaxBy_spec {α : Type} (key : α → ℚ) {l : List α} {a : α}
    (h : pyMaxBy key l = some a) : a ∈ l ∧ ∀ b ∈ l, key b ≤ key a := by
  cases l with
  | nil => simp [pyMaxBy] at h
  | cons x xs =>
    obtain ⟨hmem, hle⟩ := pyFold_spec key xs x
    simp only [pyMaxBy, Option.some.injEq] at h
    exact h ▸ ⟨hmem, hle⟩

theorem pyMaxBy_eq_none_iff {α : Type} (key : α → ℚ) (l : List α) :
    pyMaxBy key l = none ↔ l = [] := by
  cases l <;> simp [pyMaxBy]

theorem pyMaxBy_isSome {α : Type} (key : α → ℚ) {l : List α} (h : l ≠ []) :
    ∃ a, pyMaxBy key l = some a := by
  cases l with
  | nil => exact absurd rfl h
  | cons x xs => exact ⟨_, rfl⟩

theorem pySlice16_eq_nil_iff {α : Type} (l : List α) :
    pySlice16 l = [] ↔ l.length ≤ 32 := by
  unfold pySlice16
  rw [List.take_eq_nil_iff, List.drop_eq_nil_iff]
  omega

theorem mem_of_mem_pySlice16 {α : Type} {l : List α} {x : α}
    (h : x ∈ pySlice16 l) : x ∈ l :=
  List.mem_of_mem_drop (List.mem_of_mem_take h)

theorem flatten_map_map {α β : Type} (f : α → β) (l : List (List α)) :
    (l.map (fun r => r.map f)).flatten = l.flatten.map f :=
  (List.map_flatten f l).symm

theorem find_screen_eq (P : Prims) (photo : Img) (color : Color)
    (strict : Bool) (hc : color ≠ .BLACK) :
    ScreenChecker.find_screen P photo color strict =
      if strict = true ∧ 1 < (ScreenChecker.survivingOf P photo color).length then
        .error .multipleContours
      else
        match pyMaxBy P.contourArea (ScreenChecker.survivingOf P photo color) with
        | none => .error .emptySequence
        | some sc => ScreenChecker.quadApprox P sc := by
  unfold ScreenChecker.find_screen
  rw [if_neg hc]

theorem quadApprox_ok (P : Prims) (sc : Contour)
    (h4 : (P.approxPolyDP sc (1 / 100 * P.arcLength sc true) true).length = 4) :
    ScreenChecker.quadApprox P sc =
      .ok (P.approxPolyDP sc (1 / 100 * P.arcLength sc true) true) := by
  unfold ScreenChecker.quadApprox
  rw [if_pos h4]

theorem quadApprox_eq_screenNotFound_iff (P : Prims) (sc : Contour) :
    ScreenChecker.quadApprox P sc = .error .screenNotFound ↔
      (P.approxPolyDP sc (1 / 100 * P.arcLength sc true) true).length ≠ 4 := by
  unfold ScreenChecker.quadApprox
  split
  next h4 =>
    rw [h4]
    simp
  next h4 =>
    simpa using h4

theorem quadApprox_ne_multipleContours (P : Prims) (sc : Contour) :
    ScreenChecker.quadApprox P sc ≠ .error .multipleContours := by
  unfold ScreenChecker.quadApprox
  split <;> simp

theorem quadApprox_ne_emptySequence (P : Prims) (sc : Contour) :
    ScreenChecker.quadApprox P sc ≠ .error .emptySequence := by
  unfold ScreenChecker.quadApprox
  split <;> simp

theorem devList_flatten (P : Prims) (photo : Img) (color : Color)
    (corners : List Pt) (method : DeltaEMethod) :
    (deltasOf P method
        (cvtLabImg P (scaleImg (trimImg (P.fourPointTransform photo corners))))
        (P.cvtSingleLab (ScreenChecker._color2bgr color))).flatten =
      devList P photo color corners method := by
  unfold devList deltasOf cvtLabImg scaleImg
  rw [flatten_map_map, flatten_map_map, flatten_map_map, List.map_map,
    List.map_map]
  rfl

theorem check_screen_npMax (P : Prims) (photo : Img) (color : Color)
    (corners : List Pt) (method : DeltaEMethod) :
    ScreenChecker.check_screen P photo color corners method =
      match pyMaxBy id (devList P photo color corners method) with
      | none => .error .emptySequence
      | some v => .ok v := by
  unfold ScreenChecker.check_screen npMax
  rw [devList_flatten]

/-- C4: for every photo and both strict settings, `find_screen` called with
`color = BLACK` fails with the invalid-color error ("Cannot find a black
screen from a photo.") before performing any image processing — in the heap
model no buffer is read or allocated — and the failure is independent of the
photo content; `main.find_screen` behaves the same. -/
theorem find_screen_black_invalid_color (P : Prims) (photo : Img)
    (strict : Bool) (h : Heap) (p : Nat) :
    ScreenChecker.find_screen P photo .BLACK strict = .error .invalidColor
    ∧ MainVariant.find_screen P photo .BLACK = .error .invalidColor
    ∧ ScreenChecker.find_screenS P h p .BLACK strict =
        (h, .error .invalidColor) :=
  ⟨rfl, rfl, rfl⟩

/-- C8: the segmentation channel derived by `find_screen` is grayscale
intensity for `WHITE`, and for `BLUE`/`GREEN`/`RED` it is exactly channel
0/1/2 of the photo's BGR triples — the channel in which the pure reference
color of `_color2bgr` is brightest (component 1, the other two components
0). -/
theorem find_screen_segmentation_channel (P : Prims) (photo : Img) :
    ScreenChecker.grayOf P photo .WHITE = toGray P photo
    ∧ ScreenChecker.grayOf P photo .BLUE = channelImg photo 0
    ∧ ScreenChecker.grayOf P photo .GREEN = channelImg photo 1
    ∧ ScreenChecker.grayOf P photo .RED = channelImg photo 2
    ∧ pxChannel 0 (ScreenChecker._color2bgr .BLUE) = 1
    ∧ pxChannel 1 (ScreenChecker._color2bgr .BLUE) = 0
    ∧ pxChannel 2 (ScreenChecker._color2bgr .BLUE) = 0
    ∧ pxChannel 1 (ScreenChecker._color2bgr .GREEN) = 1
    ∧ pxChannel 0 (ScreenChecker._color2bgr .GREEN) = 0
    ∧ pxChannel 2 (ScreenChecker._color2bgr .GREEN) = 0
    ∧ pxChannel 2 (ScreenChecker._color2bgr .RED) = 1
    ∧ pxChannel 0 (ScreenChecker._color2bgr .RED) = 0
    ∧ pxChannel 1 (ScreenChecker._color2bgr .RED) = 0 :=
  ⟨rfl, rfl, rfl, rfl, rfl, rfl, rfl, rfl, rfl, rfl, rfl, rfl, rfl⟩

/-- C7: in `find_screen` a contour survives the noise-floor filter exactly
when its area is strictly greater than 4; the strict-mode check then operates
on the filtered list (it fires exactly when more than one contour
survives). -/
theorem find_screen_noise_floor_filter (P : Prims) (photo : Img)
    (color : Color) (c : Contour) (hc : color ≠ .BLACK) :
    (c ∈ ScreenChecker.survivingOf P photo color ↔
      c ∈ ScreenChecker.contoursOf P photo color ∧ 4 < P.contourArea c)
    ∧ (ScreenChecker.find_screen P photo color true =
          .error .multipleContours ↔
        1 < (ScreenChecker.survivingOf P photo color).length) := by
  constructor
  · unfold ScreenChecker.survivingOf
    simp [List.mem_filter]
  · rw [find_screen_eq P photo color true hc]
    constructor
    · intro h
      by_contra hlen
      have hcond : ¬(true = true ∧
          1 < (ScreenChecker.survivingOf P photo color).length) := by
        simp [hlen]
      rw [if_neg hcond] at h
      rcases e : pyMaxBy P.contourArea (ScreenChecker.survivingOf P photo color)
        with _ | sc
      · rw [e] at h
        simp at h
      · rw [e] at h
        exact quadApprox_ne_multipleContours P sc h
    · intro hlen
      rw [if_pos ⟨rfl, hlen⟩]

/-- C7 witness: the filter characterization and the strict-check equivalence
evaluated at a concrete instantiation with two surviving contours. -/
theorem find_screen_noise_floor_filter_witness :
    Color.RED ≠ Color.BLACK
    ∧ ((contourTri ∈ ScreenChecker.survivingOf samplePrims photo1 .RED ↔
          contourTri ∈ ScreenChecker.contoursOf samplePrims photo1 .RED
            ∧ 4 < samplePrims.contourArea contourTri)
      ∧ (ScreenChecker.find_screen samplePrims photo1 .RED true =
            .error .multipleContours ↔
          1 < (ScreenChecker.survivingOf samplePrims photo1 .RED).length)) :=
  ⟨by decide,
    find_screen_noise_floor_filter samplePrims photo1 .RED contourTri
      (by decide)⟩

/-- C1 counterexample: with contour extraction finding nothing (a photo
containing no screen-colored region), `find_screen` with a non-BLACK color
does not fail with ScreenNotFoundError ("Cannot find the screen."); it fails
with the empty-sequence error of Python's `max()`. -/
theorem find_screen_no_contour_not_screenNotFound :
    ScreenChecker.find_screen noContourPrims photo1 .RED false ≠
        .error .screenNotFound
    ∧ ScreenChecker.find_screen noContourPrims photo1 .RED false =
        .error .emptySequence := by
  constructor
  · decide
  · decide

/-- C1 amended: for every photo with no contour surviving the noise-floor
filter, `find_screen` with a non-BLACK color fails with the empty-sequence
error raised by Python's `max()` on an empty sequence (not with
ScreenNotFoundError), and in particular never returns a (degenerate)
quadrilateral. -/
theorem find_screen_no_contour_empty_sequence (P : Prims) (photo : Img)
    (color : Color) (strict : Bool) (hc : color ≠ .BLACK)
    (hno : ScreenChecker.survivingOf P photo color = []) :
    ScreenChecker.find_screen P photo color strict = .error .emptySequence
    ∧ ∀ cs, ScreenChecker.find_screen P photo color strict ≠ .ok cs := by
  have h1 : ScreenChecker.find_screen P photo color strict =
      .error .emptySequence := by
    rw [find_screen_eq P photo color strict hc, hno]
    simp [pyMaxBy]
  constructor
  · exact h1
  · intro cs h
    rw [h1] at h
    exact Except.noConfusion h

/-- C1 amended witness: the empty-contour behaviour at a concrete input. -/
theorem find_screen_no_contour_empty_sequence_witness :
    (Color.RED ≠ Color.BLACK
        ∧ ScreenChecker.survivingOf noContourPrims photo1 .RED = [])
    ∧ ScreenChecker.find_screen noContourPrims photo1 .RED false =
        .error .emptySequence
    ∧ ∀ cs, ScreenChecker.find_screen noContourPrims photo1 .RED false ≠
        .ok cs :=
  ⟨⟨by decide, by decide⟩,
    find_screen_no_contour_empty_sequence noContourPrims photo1 .RED false
      (by decide) (by decide)⟩

/-- C5: with more than one contour surviving the filter, `find_screen` in
strict mode fails with MultipleContoursError ("Multiple contours found.");
on the same input with `strict = false` it does not raise that error and
selects the contour of maximum area (Python's `max`: the first contour
attaining the maximal area) as the screen candidate, continuing with the
quadrilateral approximation of that contour. -/
theorem find_screen_strict_multiple_contours (P : Prims) (photo : Img)
    (color : Color) (hc : color ≠ .BLACK)
    (hlen : 1 < (ScreenChecker.survivingOf P photo color).length) :
    ScreenChecker.find_screen P photo color true = .error .multipleContours
    ∧ ScreenChecker.find_screen P photo color false ≠
        .error .multipleContours
    ∧ ∃ sc, pyMaxBy P.contourArea (ScreenChecker.survivingOf P photo color) =
          some sc
        ∧ sc ∈ ScreenChecker.survivingOf P photo color
        ∧ (∀ c ∈ ScreenChecker.survivingOf P photo color,
            P.contourArea c ≤ P.contourArea sc)
        ∧ ScreenChecker.find_screen P photo color false =
            ScreenChecker.quadApprox P sc := by
  have hne : ScreenChecker.survivingOf P photo color ≠ [] := by
    intro h
    rw [h] at hlen
    simp at hlen
  obtain ⟨sc, hsc⟩ := pyMaxBy_isSome P.contourArea hne
  obtain ⟨hmem, hmax⟩ := pyMaxBy_spec P.contourArea hsc
  have hfalse : ScreenChecker.find_screen P photo color false =
      ScreenChecker.quadApprox P sc := by
    rw [find_screen_eq P photo color false hc, if_neg (by simp), hsc]
  refine ⟨?_, ?_, sc, hsc, hmem, hmax, hfalse⟩
  · rw [find_screen_eq P photo color true hc, if_pos ⟨rfl, hlen⟩]
  · rw [hfalse]
    exact quadApprox_ne_multipleContours P sc

/-- C5 witness: the strict / non-strict behaviour at a concrete input with
two surviving contours of distinct areas. -/
theorem find_screen_strict_multiple_contours_witness :
    (Color.RED ≠ Color.BLACK
        ∧ 1 < (ScreenChecker.survivingOf samplePrims photo1 .RED).length)
    ∧ ScreenChecker.find_screen samplePrims photo1 .RED true =
        .error .multipleContours
    ∧ ScreenChecker.find_screen samplePrims photo1 .RED false ≠
        .error .multipleContours
    ∧ ∃ sc, pyMaxBy samplePrims.contourArea
          (ScreenChecker.survivingOf samplePrims photo1 .RED) = some sc
        ∧ sc ∈ ScreenChecker.survivingOf samplePrims photo1 .RED
        ∧ (∀ c ∈ ScreenChecker.survivingOf samplePrims photo1 .RED,
            samplePrims.contourArea c ≤ samplePrims.contourArea sc)
        ∧ ScreenChecker.find_screen samplePrims photo1 .RED false =
            ScreenChecker.quadApprox samplePrims sc :=
  ⟨⟨by decide, by decide⟩,
    find_screen_strict_multiple_contours samplePrims photo1 .RED
      (by decide) (by decide)⟩

/-- C6: given a non-BLACK color, at least one surviving contour and no
strict-mode ambiguity, `find_screen` approximates the maximum-area contour
with tolerance 1% of its closed perimeter, returns exactly the 4 approximated
vertices when the approximation has exactly 4 vertices, and fails with
ScreenNotFoundError if and only if the vertex count is anything else. -/
theorem find_screen_quad_approx (P : Prims) (photo : Img) (color : Color)
    (strict : Bool) (hc : color ≠ .BLACK)
    (hne : ScreenChecker.survivingOf P photo color ≠ [])
    (hstrict : ¬(strict = true ∧
      1 < (ScreenChecker.survivingOf P photo color).length)) :
    ∃ sc, pyMaxBy P.contourArea (ScreenChecker.survivingOf P photo color) =
        some sc
      ∧ sc ∈ ScreenChecker.survivingOf P photo color
      ∧ (∀ c ∈ ScreenChecker.survivingOf P photo color,
          P.contourArea c ≤ P.contourArea sc)
      ∧ ((P.approxPolyDP sc (1 / 100 * P.arcLength sc true) true).length = 4 →
          ScreenChecker.find_screen P photo color strict =
            .ok (P.approxPolyDP sc (1 / 100 * P.arcLength sc true) true))
      ∧ (ScreenChecker.find_screen P photo color strict =
            .error .screenNotFound ↔
          (P.approxPolyDP sc (1 / 100 * P.arcLength sc true) true).length ≠
            4) := by
  obtain ⟨sc, hsc⟩ := pyMaxBy_isSome P.contourArea hne
  obtain ⟨hmem, hmax⟩ := pyMaxBy_spec P.contourArea hsc
  have hfs : ScreenChecker.find_screen P photo color strict =
      ScreenChecker.quadApprox P sc := by
    rw [find_screen_eq P photo color strict hc, if_neg hstrict, hsc]
  refine ⟨sc, hsc, hmem, hmax, ?_, ?_⟩
  · intro h4
    rw [hfs]
    exact quadApprox_ok P sc h4
  · rw [hfs]
    exact quadApprox_eq_screenNotFound_iff P sc

/-- C6 witness: the quadrilateral-approximation outcome at a concrete input
with a single surviving 4-point contour, in strict mode. -/
theorem find_screen_quad_approx_witness :
    (Color.RED ≠ Color.BLACK
        ∧ ScreenChecker.survivingOf oneContourPrims photo1 .RED ≠ []
        ∧ ¬(true = true ∧
          1 < (ScreenChecker.survivingOf oneContourPrims photo1 .RED).length))
    ∧ ∃ sc, pyMaxBy oneContourPrims.contourArea
          (ScreenChecker.survivingOf oneContourPrims photo1 .RED) = some sc
        ∧ sc ∈ ScreenChecker.survivingOf oneContourPrims photo1 .RED
        ∧ (∀ c ∈ ScreenChecker.survivingOf oneContourPrims photo1 .RED,
            oneContourPrims.contourArea c ≤ oneContourPrims.contourArea sc)
        ∧ ((oneContourPrims.approxPolyDP sc
              (1 / 100 * oneContourPrims.arcLength sc true) true).length = 4 →
            ScreenChecker.find_screen oneContourPrims photo1 .RED true =
              .ok (oneContourPrims.approxPolyDP sc
                (1 / 100 * oneContourPrims.arcLength sc true) true))
        ∧ (ScreenChecker.find_screen oneContourPrims photo1 .RED true =
              .error .screenNotFound ↔
            (oneContourPrims.approxPolyDP sc
              (1 / 100 * oneContourPrims.arcLength sc true) true).length ≠
              4) :=
  ⟨⟨by decide, by decide, by decide⟩,
    find_screen_quad_approx oneContourPrims photo1 .RED true
      (by decide) (by decide) (by decide)⟩

/-- C2 counterexample: on a concrete input whose warped screen is 33×33,
`ocr_ssd` binarizes and crops the *untrimmed* warped image (the OCR engine
sees a 53-row bordered image), while the spec-modelled pipeline with the
standard 16-pixel margin trim of PerspectiveNormalizer sees a 21-row bordered
image; the two pipelines return different text. -/
theorem ocr_ssd_differs_from_trimmed_readDisplay :
    ScreenChecker.ocr_ssd samplePrims photo1 = .ok "BIG"
    ∧ readDisplaySpec samplePrims photo1 = .ok "SMALL"
    ∧ ScreenChecker.ocr_ssd samplePrims photo1 ≠
        readDisplaySpec samplePrims photo1 := by
  refine ⟨by decide, by decide, by decide⟩

/-- C2 amended: `ocr_ssd` locates the screen via `find_screen` with
`color = WHITE` (and the default `strict = false`) and rectifies via
`four_point_transform` with *no* margin trim at all: binarization and
cropping are applied directly to the warped image. -/
theorem ocr_ssd_rectifies_without_margin_trim (P : Prims) (photo : Img)
    (corners : List Pt)
    (hok : ScreenChecker.find_screen P photo .WHITE = .ok corners) :
    ScreenChecker.ocr_ssd P photo =
      .ok (ScreenChecker.ocrPost P (P.fourPointTransform photo corners)) := by
  unfold ScreenChecker.ocr_ssd
  rw [hok]

/-- C2 amended witness: the untrimmed pipeline at a concrete input. -/
theorem ocr_ssd_rectifies_without_margin_trim_witness :
    ScreenChecker.find_screen samplePrims photo1 .WHITE =
        .ok (contourPenta.take 4)
    ∧ ScreenChecker.ocr_ssd samplePrims photo1 =
        .ok (ScreenChecker.ocrPost samplePrims
          (samplePrims.fourPointTransform photo1 (contourPenta.take 4))) :=
  ⟨by decide,
    ocr_ssd_rectifies_without_margin_trim samplePrims photo1
      (contourPenta.take 4) (by decide)⟩

/-- C3: whenever the 16-pixel-trimmed rectified image is nonempty,
`check_screen` returns the *maximum* (an element of the per-pixel deviation
list that bounds every other element — not an average) of the perceptual
deviations between the reference color and every pixel of the rectified
image after the fixed 16-pixel margin trim; the method argument defaults to
CIE 2000, and the chosen method never changes control flow (the success of
the call is the same for any two methods). -/
theorem check_screen_max_deviation (P : Prims) (photo : Img) (color : Color)
    (corners : List Pt) (method m2 : DeltaEMethod)
    (hne : (trimImg (P.fourPointTransform photo corners)).flatten ≠ []) :
    (∃ m, ScreenChecker.check_screen P photo color corners method = .ok m
      ∧ m ∈ devList P photo color corners method
      ∧ ∀ d ∈ devList P photo color corners method, d ≤ m)
    ∧ ScreenChecker.check_screen P photo color corners =
        ScreenChecker.check_screen P photo color corners .cie2000
    ∧ (ScreenChecker.check_screen P photo color corners method).isOk =
        (ScreenChecker.check_screen P photo color corners m2).isOk := by
  have hdev : ∀ mm : DeltaEMethod, devList P photo color corners mm ≠ [] := by
    intro mm hnil
    unfold devList at hnil
    rw [List.map_eq_nil_iff] at hnil
    exact hne hnil
  have hok : ∀ mm : DeltaEMethod,
      ∃ v, ScreenChecker.check_screen P photo color corners mm = .ok v ∧
        pyMaxBy id (devList P photo color corners mm) = some v := by
    intro mm
    obtain ⟨v, hv⟩ := pyMaxBy_isSome id (hdev mm)
    refine ⟨v, ?_, hv⟩
    rw [check_screen_npMax, hv]
  obtain ⟨m, hm, hmax⟩ := hok method
  obtain ⟨hmem, hle⟩ := pyMaxBy_spec id hmax
  refine ⟨⟨m, hm, hmem, hle⟩, rfl, ?_⟩
  obtain ⟨v2, h2, _⟩ := hok m2
  rw [hm, h2]
  rfl

/-- C3 witness: the maximum-deviation characterization at a concrete input
with a nonempty trimmed region. -/
theorem check_screen_max_deviation_witness :
    (trimImg (samplePrims.fourPointTransform photo1 contourQuad)).flatten ≠ []
    ∧ ((∃ m, ScreenChecker.check_screen samplePrims photo1 .RED contourQuad
          .cie1976 = .ok m
        ∧ m ∈ devList samplePrims photo1 .RED contourQuad .cie1976
        ∧ ∀ d ∈ devList samplePrims photo1 .RED contourQuad .cie1976, d ≤ m)
      ∧ ScreenChecker.check_screen samplePrims photo1 .RED contourQuad =
          ScreenChecker.check_screen samplePrims photo1 .RED contourQuad
            .cie2000
      ∧ (ScreenChecker.check_screen samplePrims photo1 .RED contourQuad
            .cie1976).isOk =
          (ScreenChecker.check_screen samplePrims photo1 .RED contourQuad
            .cmc).isOk) :=
  ⟨by decide,
    check_screen_max_deviation samplePrims photo1 .RED contourQuad
      .cie1976 .cmc (by decide)⟩

/-- C10: for a rectangular warped image (every row of width `W`),
`check_screen` returns a deviation score exactly when the warped image is
strictly larger than 32 pixels in both dimensions; when either dimension is
32 or smaller the fixed 16-pixel trim leaves no pixels, the maximum runs over
an empty set, and the call fails instead of returning a value. -/
theorem check_screen_ok_iff_dims_gt_32 (P : Prims) (photo : Img)
    (color : Color) (corners : List Pt) (method : DeltaEMethod) (W : Nat)
    (hrect : ∀ r ∈ P.fourPointTransform photo corners, r.length = W) :
    (∃ v, ScreenChecker.check_screen P photo color corners method = .ok v) ↔
      32 < (P.fourPointTransform photo corners).length ∧ 32 < W := by
  have hiff1 : (∃ v,
      ScreenChecker.check_screen P photo color corners method = .ok v) ↔
      devList P photo color corners method ≠ [] := by
    constructor
    · rintro ⟨v, hv⟩ hnil
      rw [check_screen_npMax, hnil] at hv
      simp [pyMaxBy] at hv
    · intro hnenil
      obtain ⟨a, ha⟩ := pyMaxBy_isSome id hnenil
      refine ⟨a, ?_⟩
      rw [check_screen_npMax, ha]
  have hiff2 : devList P photo color corners method ≠ [] ↔
      (trimImg (P.fourPointTransform photo corners)).flatten ≠ [] := by
    unfold devList
    rw [ne_eq, List.map_eq_nil_iff]
  have hiff3 : (trimImg (P.fourPointTransform photo corners)).flatten = [] ↔
      ((P.fourPointTransform photo corners).length ≤ 32 ∨ W ≤ 32) := by
    unfold trimImg
    rw [List.flatten_eq_nil_iff]
    constructor
    · intro hall
      by_cases hlen : (P.fourPointTransform photo corners).length ≤ 32
      · exact Or.inl hlen
      · refine Or.inr ?_
        have hne2 : pySlice16 (P.fourPointTransform photo corners) ≠ [] := by
          rw [ne_eq, pySlice16_eq_nil_iff]
          omega
        obtain ⟨r0, hr0⟩ := List.exists_mem_of_ne_nil _ hne2
        have hm := hall (pySlice16 r0) (List.mem_map_of_mem _ hr0)
        rw [pySlice16_eq_nil_iff,
          hrect r0 (mem_of_mem_pySlice16 hr0)] at hm
        exact hm
    · intro hor r hr
      rw [List.mem_map] at hr
      obtain ⟨r0, hr0, rfl⟩ := hr
      rw [pySlice16_eq_nil_iff]
      rcases hor with hl | hw
      · exfalso
        rw [← pySlice16_eq_nil_iff] at hl
        rw [hl] at hr0
        cases hr0
      · rw [hrect r0 (mem_of_mem_pySlice16 hr0)]
        exact hw
  rw [hiff1, hiff2, ne_eq, hiff3]
  omega

/-- C10 witness: the dimension criterion at a concrete input whose warped
image is 33×33. -/
theorem check_screen_ok_iff_dims_gt_32_witness :
    (∀ r ∈ samplePrims.fourPointTransform photo1 contourQuad, r.length = 33)
    ∧ ((∃ v, ScreenChecker.check_screen samplePrims photo1 .RED contourQuad
          .cie2000 = .ok v) ↔
        32 < (samplePrims.fourPointTransform photo1 contourQuad).length
          ∧ 32 < 33) :=
  ⟨by decide,
    check_screen_ok_iff_dims_gt_32 samplePrims photo1 .RED contourQuad
      .cie2000 33 (by decide)⟩

theorem heap_get?_append {h : Heap} (l : List Buf) {i : Nat}
    (hi : i < h.length) : (h ++ l)[i]? = h[i]? :=
  List.getElem?_append_left hi

theorem heap_get?_append2 {h : Heap} (l1 l2 : List Buf) {i : Nat}
    (hi : i < h.length) : ((h ++ l1) ++ l2)[i]? = h[i]? := by
  have h1 : i < (h ++ l1).length := by
    rw [List.length_append]
    omega
  rw [List.getElem?_append_left h1, List.getElem?_append_left hi]

theorem heap_get?_set_append {h : Heap} (l1 l2 : List Buf) (v : Buf)
    {i j : Nat} (hi : i < h.length) (hj : h.length ≤ j) :
    (((h ++ l1).set j v) ++ l2)[i]? = h[i]? := by
  have hlen : i < ((h ++ l1).set j v).length := by
    rw [List.length_set, List.length_append]
    omega
  rw [List.getElem?_append_left hlen, List.getElem?_set_ne (by omega : j ≠ i),
    List.getElem?_append_left hi]

/-- C9: none of the core operations mutates the caller's photo buffer (nor
any other pre-existing buffer): in the heap model every buffer present
before the call holds identical data after it.  `find_screen`,
`check_screen` and `ocr_ssd` of the canonical variant only allocate;
`main.check_screen`'s brightness-normalization writes only to the HSV buffer
it freshly allocated (index `h.length + 1`, beyond every pre-existing
index). -/
theorem core_ops_preserve_photo_buffer (P : Prims) (h : Heap) (p i : Nat)
    (color : Color) (corners : List Pt) (strict : Bool)
    (method : DeltaEMethod) (hi : i < h.length) :
    (ScreenChecker.find_screenS P h p color strict).1[i]? = h[i]?
    ∧ (ScreenChecker.check_screenS P h p color corners method).1[i]? = h[i]?
    ∧ (ScreenChecker.ocr_ssdS P h p).1[i]? = h[i]?
    ∧ (MainVariant.check_screenS P h p color corners).1[i]? = h[i]? := by
  refine ⟨?_, ?_, ?_, ?_⟩
  · unfold ScreenChecker.find_screenS
    split
    · rfl
    · split
      · exact heap_get?_append _ hi
      · rfl
  · unfold ScreenChecker.check_screenS
    split
    · exact heap_get?_append _ hi
    · rfl
  · unfold ScreenChecker.ocr_ssdS
    split
    · split
      · exact heap_get?_append _ hi
      · exact heap_get?_append2 _ _ hi
    · rfl
  · unfold MainVariant.check_screenS
    split
    · split
      · exact heap_get?_append2 _ _ hi
      · dsimp only
        split
        · exact heap_get?_append2 _ _ hi
        · rw [List.append_assoc]
          exact heap_get?_set_append _ _ _ hi (by omega)
    · rfl

/-- C9 witness: buffer preservation evaluated on a concrete one-buffer heap
holding the photo. -/
theorem core_ops_preserve_photo_buffer_witness :
    0 < ([Buf.colorB photo1] : Heap).length
    ∧ ((ScreenChecker.find_screenS tinyWarpPrims [Buf.colorB photo1] 0 .RED
          false).1[0]? = ([Buf.colorB photo1] : Heap)[0]?
      ∧ (ScreenChecker.check_screenS tinyWarpPrims [Buf.colorB photo1] 0 .RED
          contourQuad .cie2000).1[0]? = ([Buf.colorB photo1] : Heap)[0]?
      ∧ (ScreenChecker.ocr_ssdS tinyWarpPrims [Buf.colorB photo1] 0).1[0]? =
          ([Buf.colorB photo1] : Heap)[0]?
      ∧ (MainVariant.check_screenS tinyWarpPrims [Buf.colorB photo1] 0 .RED
          contourQuad).1[0]? = ([Buf.colorB photo1] : Heap)[0]?) :=
  ⟨by decide,
    core_ops_preserve_photo_buffer tinyWarpPrims [Buf.colorB photo1] 0 0 .RED
      contourQuad false .cie2000 (by decide)⟩
